import Mathlib

/-!
Verification of the tiny-url URL-shortening core: the URL lifecycle
service (`internal/domain/service/url_service.go`), its repository port
(`internal/domain/ports/url_repository.go`) and the GORM-backed
repository adapter, modelled as pure state-passing functions.
-/

set_option maxHeartbeats 1000000

/-- The URL record (`internal/domain/model/url.go`): surrogate id,
original URL, unique short code, visit counter and timestamps. -/
structure URL where
  id : Nat
  originalURL : String
  shortCode : String
  visits : Int
  createdAt : Nat
  updatedAt : Nat
  expiresAt : Option Nat
  deriving Repr, DecidableEq

/-- Domain errors (`internal/domain/errors`): the sentinel errors used by
the URL service, plus `wrapped` for errors produced by `errors.Wrap`
around an underlying store error, and `errGeneratingCode` for
`fmt.Errorf("%w: %v", ErrGeneratingCode, err)`. -/
inductive Err where
  | errURLNotFound
  | errInvalidURL
  | errGeneratingCode (msg : String)
  | wrapped (msg : String)
  deriving Repr, DecidableEq

/-- The repository port (`ports.URLRepository`): each operation is a
state-passing function over an abstract store state `σ`, returning a Go
`(value, error)` pair modelled as `Except Err`.  `create` returns the
stored record because GORM's `Create` fills in `ID`/`CreatedAt` through
the pointer it receives.  `getByOriginalURL` returns `Except.ok none`
for "absent, no error" (the adapter translates `ErrRecordNotFound` to
`(nil, nil)`). -/
structure URLRepository (σ : Type) where
  create : σ → URL → Except Err URL × σ
  getByShortCode : σ → String → Except Err (Option URL) × σ
  getByOriginalURL : σ → String → Except Err (Option URL) × σ
  incrementVisits : σ → String → Except Err Unit × σ
  list : σ → Int → Int → Except Err (List URL) × σ
  delete : σ → String → Except Err Unit × σ

/-- The `charset` constant from `url_service.go`: the 62 characters allowed in short
codes. -/
def charset : String :=
  "abcdefghijklmnopqrstuvwxyzABCDEFGHIJKLMNOPQRSTUVWXYZ0123456789"

/-- The `codeLength` constant from `url_service.go`. -/
def codeLength : Nat := 6

/-- One iteration result of `rand.Int(rand.Reader, charsetLength)`:
the secure-random source is modelled as a function from the call index
to either an error or the drawn index (its contract keeps the value
below `charset.length`). -/
def randSource : Type := Nat → Except String Nat

/-- Builds the first `n` characters of a short code, consuming `rnd 0`,
…, `rnd (n-1)` in order; the error of the smallest failing index wins,
exactly as the Go loop returns on the first failing `rand.Int` call. -/
def genCodeChars (rnd : randSource) : Nat → Except String (List Char)
  | 0 => Except.ok []
  | n + 1 =>
    match genCodeChars rnd n with
    | Except.error e => Except.error e
    | Except.ok acc =>
      match rnd n with
      | Except.error e => Except.error e
      | Except.ok v => Except.ok (acc ++ [charset.toList.getD v 'a'])

/-- Model of `generateShortCode` from `url_service.go`: draws `codeLength`
indices from the secure-random source and maps them through `charset`;
fails with the source's error if any draw fails. -/
def generateShortCode (rnd : randSource) : Except String String :=
  match genCodeChars rnd codeLength with
  | Except.error e => Except.error e
  | Except.ok cs => Except.ok (String.mk cs)

/-- Model of `ShortenURL` from `url_service.go`: reject empty input, dedup-check
by original URL (proceeding whenever the lookup did not return an
existing record, even on a lookup error), generate a code, and persist
a fresh record with `Visits = 0`; any creation error is returned
directly to the caller. -/
def ShortenURL {σ : Type} (repo : URLRepository σ) (rnd : randSource)
    (s : σ) (originalURL : String) : Except Err URL × σ :=
  if originalURL = "" then
    (Except.error Err.errInvalidURL, s)
  else
    match repo.getByOriginalURL s originalURL with
    | (res, s1) =>
      match res with
      | Except.ok (some existingURL) => (Except.ok existingURL, s1)
      | _ =>
        match generateShortCode rnd with
        | Except.error e => (Except.error (Err.errGeneratingCode e), s1)
        | Except.ok shortCode =>
          let url : URL :=
            { id := 0, originalURL := originalURL, shortCode := shortCode,
              visits := 0, createdAt := 0, updatedAt := 0, expiresAt := none }
          match repo.create s1 url with
          | (Except.error e, s2) => (Except.error e, s2)
          | (Except.ok stored, s2) => (Except.ok stored, s2)

/-- Model of `GetURL` from `url_service.go`: look up by short code, propagate the
repository error, and translate a nil record into `ErrURLNotFound`. -/
def GetURL {σ : Type} (repo : URLRepository σ) (s : σ)
    (shortCode : String) : Except Err URL × σ :=
  match repo.getByShortCode s shortCode with
  | (Except.error e, s1) => (Except.error e, s1)
  | (Except.ok none, s1) => (Except.error Err.errURLNotFound, s1)
  | (Except.ok (some url), s1) => (Except.ok url, s1)

/-- Model of `RedirectURL` from `url_service.go`: look up by short code, then ask
the store for an atomic visit increment; an increment failure is only
logged and the original URL is returned regardless. -/
def RedirectURL {σ : Type} (repo : URLRepository σ) (s : σ)
    (shortCode : String) : Except Err String × σ :=
  match repo.getByShortCode s shortCode with
  | (Except.error e, s1) => (Except.error e, s1)
  | (Except.ok none, s1) => (Except.error Err.errURLNotFound, s1)
  | (Except.ok (some url), s1) =>
    match repo.incrementVisits s1 shortCode with
    | (_, s2) => (Except.ok url.originalURL, s2)

/-- Model of `ListURLs` from `url_service.go`: delegates to the repository. -/
def ListURLs {σ : Type} (repo : URLRepository σ) (s : σ)
    (limit offset : Int) : Except Err (List URL) × σ :=
  repo.list s limit offset

/-- Model of `DeleteURL` from `url_service.go`: delegates to the repository. -/
def DeleteURL {σ : Type} (repo : URLRepository σ) (s : σ)
    (shortCode : String) : Except Err Unit × σ :=
  repo.delete s shortCode

/-! ### The GORM-backed repository adapter

`internal/adapters/repository` over a model of the relational store:
rows in insertion order (GORM assigns ascending primary keys and
PostgreSQL's natural scan order for this workload is insertion order),
a primary-key counter, and a clock driving `autoCreateTime`. -/

/-- State of the relational store behind the GORM adapter: the `urls`
table in insertion order, the next primary key, and the clock used for
`autoCreateTime`/`autoUpdateTime`. -/
structure GormDB where
  rows : List URL
  nextId : Nat
  now : Nat
  deriving Repr, DecidableEq

/-- Model of `URLRepository.Create`: `db.Create(url)` assigns the primary key and
creation timestamp and inserts the row; the store's unique index on
`short_code` rejects a duplicate code, surfacing as a wrapped error
(`errors.Wrap(result.Error, "error al crear URL")`). -/
def gormCreate (s : GormDB) (url : URL) : Except Err URL × GormDB :=
  if s.rows.any (fun r => r.shortCode == url.shortCode) then
    (Except.error (Err.wrapped "error al crear URL"), s)
  else
    let stored : URL :=
      { url with id := s.nextId, createdAt := s.now, updatedAt := s.now }
    (Except.ok stored,
     { rows := s.rows ++ [stored], nextId := s.nextId + 1, now := s.now + 1 })

/-- Model of `URLRepository.GetByShortCode`: `First` on `short_code = ?`; a miss
(`gorm.ErrRecordNotFound`) is translated to `ErrURLNotFound`. -/
def gormGetByShortCode (s : GormDB) (shortCode : String) :
    Except Err (Option URL) × GormDB :=
  match s.rows.find? (fun r => r.shortCode == shortCode) with
  | some url => (Except.ok (some url), s)
  | none => (Except.error Err.errURLNotFound, s)

/-- Model of `URLRepository.GetByOriginalURL`: `First` on `original_url = ?`; a
miss is not an error, it returns `(nil, nil)`. -/
def gormGetByOriginalURL (s : GormDB) (originalURL : String) :
    Except Err (Option URL) × GormDB :=
  match s.rows.find? (fun r => r.originalURL == originalURL) with
  | some url => (Except.ok (some url), s)
  | none => (Except.ok none, s)

/-- Model of `URLRepository.IncrementVisits`: a single `UPDATE … SET visits =
visits + 1 WHERE short_code = ?` (`UpdateColumn` with `gorm.Expr`);
`RowsAffected == 0` is translated to `ErrURLNotFound`. -/
def gormIncrementVisits (s : GormDB) (shortCode : String) :
    Except Err Unit × GormDB :=
  if s.rows.any (fun r => r.shortCode == shortCode) then
    (Except.ok (),
     { s with rows :=
         s.rows.map (fun r =>
           if r.shortCode == shortCode then { r with visits := r.visits + 1 }
           else r) })
  else
    (Except.error Err.errURLNotFound, s)

/-- Model of `URLRepository.List`: `Limit(limit).Offset(offset).Find` with no
ORDER BY clause — rows come back in the store's natural insertion
order; a non-positive offset and a negative limit are no-ops for GORM. -/
def gormList (s : GormDB) (limit offset : Int) :
    Except Err (List URL) × GormDB :=
  let afterOffset := if offset ≤ 0 then s.rows else s.rows.drop offset.toNat
  let page := if limit < 0 then afterOffset else afterOffset.take limit.toNat
  (Except.ok page, s)

/-- Model of `URLRepository.Delete`: hard delete of every row matching the short
code; `RowsAffected == 0` is translated to `ErrURLNotFound`. -/
def gormDelete (s : GormDB) (shortCode : String) :
    Except Err Unit × GormDB :=
  if s.rows.any (fun r => r.shortCode == shortCode) then
    (Except.ok (),
     { s with rows := s.rows.filter (fun r => !(r.shortCode == shortCode)) })
  else
    (Except.error Err.errURLNotFound, s)

/-- The GORM adapter assembled as the repository port
(`repository.NewURLRepository`). -/
def gormRepo : URLRepository GormDB :=
  { create := gormCreate
    getByShortCode := gormGetByShortCode
    getByOriginalURL := gormGetByOriginalURL
    incrementVisits := gormIncrementVisits
    list := gormList
    delete := gormDelete }

/-! ### Test doubles used to instantiate the port in witnesses -/

/-- A fixed active record used by the test doubles. -/
def stubURL : URL :=
  { id := 1, originalURL := "https://example.com/a", shortCode := "abc123",
    visits := 0, createdAt := 0, updatedAt := 0, expiresAt := none }

/-- A repository double whose visit-increment always fails with the
adapter's wrapped store error, while lookups succeed. -/
def failIncRepo : URLRepository Unit :=
  { create := fun s u => (Except.ok u, s)
    getByShortCode := fun s _ => (Except.ok (some stubURL), s)
    getByOriginalURL := fun s _ => (Except.ok none, s)
    incrementVisits := fun s _ =>
      (Except.error (Err.wrapped "error al incrementar visitas"), s)
    list := fun s _ _ => (Except.ok [], s)
    delete := fun s _ => (Except.ok (), s) }

/-- A repository double whose dedup lookup always fails with the
adapter's wrapped store error. -/
def failLookupRepo : URLRepository Unit :=
  { create := fun s u => (Except.ok u, s)
    getByShortCode := fun s _ => (Except.ok none, s)
    getByOriginalURL := fun s _ =>
      (Except.error (Err.wrapped "error al buscar URL por URL original"), s)
    incrementVisits := fun s _ => (Except.ok (), s)
    list := fun s _ _ => (Except.ok [], s)
    delete := fun s _ => (Except.ok (), s) }

/-- A random source that always draws index 0 (the character 'a'). -/
def rndZero : randSource := fun _ => Except.ok 0

/-! ### Claims -/

/-- C6: for the empty original URL, `ShortenURL` fails with
`ErrInvalidURL` over any repository and any state, leaving the state
untouched — so no store lookup or creation can have taken place. -/
theorem shortenURL_empty_invalid (σ : Type) (repo : URLRepository σ)
    (rnd : randSource) (s : σ) :
    ShortenURL repo rnd s "" = (Except.error Err.errInvalidURL, s) := by
  simp [ShortenURL]

/-- C4: when the looked-up record exists, `RedirectURL` returns its
original URL even though the visit-counter increment failed; the
increment error is swallowed and never surfaces in the result. -/
theorem redirectURL_swallows_increment_error (σ : Type)
    (repo : URLRepository σ) (s s1 s2 : σ) (shortCode : String) (url : URL)
    (e : Err)
    (hget : repo.getByShortCode s shortCode = (Except.ok (some url), s1))
    (hinc : repo.incrementVisits s1 shortCode = (Except.error e, s2)) :
    RedirectURL repo s shortCode = (Except.ok url.originalURL, s2) := by
  simp [RedirectURL, hget, hinc]

/-- C4 witness: against the double whose increment always fails, the
redirect still succeeds with the record's original URL. -/
theorem redirectURL_swallows_increment_error_witness :
    RedirectURL failIncRepo () "abc123" =
      (Except.ok "https://example.com/a", ()) :=
  redirectURL_swallows_increment_error Unit failIncRepo () () () "abc123"
    stubURL (Err.wrapped "error al incrementar visitas") rfl rfl

/-- C10: when the dedup lookup fails with a store error, `ShortenURL`
discards that error and continues exactly as if no existing record had
been found: it generates a code and attempts the creation, so the
lookup error is never the returned result. -/
theorem shortenURL_discards_lookup_error (σ : Type) (repo : URLRepository σ)
    (rnd : randSource) (s s1 : σ) (u : String) (e : Err)
    (hu : u ≠ "")
    (hl : repo.getByOriginalURL s u = (Except.error e, s1)) :
    ShortenURL repo rnd s u =
      match generateShortCode rnd with
      | Except.error g => (Except.error (Err.errGeneratingCode g), s1)
      | Except.ok c =>
        repo.create s1
          { id := 0, originalURL := u, shortCode := c, visits := 0,
            createdAt := 0, updatedAt := 0, expiresAt := none } := by
  rw [ShortenURL, if_neg hu, hl]
  cases hg : generateShortCode rnd with
  | error g => simp
  | ok c =>
    simp only
    cases hc : repo.create s1
        { id := 0, originalURL := u, shortCode := c, visits := 0,
          createdAt := 0, updatedAt := 0, expiresAt := none } with
    | mk res s2 => cases res <;> rfl

/-- C10 witness: against the double whose dedup lookup always fails,
`ShortenURL` proceeds to create a record with the generated code
"aaaaaa" instead of returning the lookup error. -/
theorem shortenURL_discards_lookup_error_witness :
    ShortenURL failLookupRepo rndZero () "https://example.com/a" =
      (Except.ok
        { id := 0, originalURL := "https://example.com/a",
          shortCode := "aaaaaa", visits := 0, createdAt := 0, updatedAt := 0,
          expiresAt := none }, ()) := by
  have h := shortenURL_discards_lookup_error Unit failLookupRepo rndZero () ()
    "https://example.com/a" (Err.wrapped "error al buscar URL por URL original")
    (by decide) rfl
  exact h.trans (by rfl)

/-- C5: on a short code matched by no record in the store, `GetURL`,
`RedirectURL` and `DeleteURL` all fail with `ErrURLNotFound` and leave
the store unchanged. -/
theorem missing_code_not_found (db : GormDB) (shortCode : String)
    (h : ∀ r ∈ db.rows, r.shortCode ≠ shortCode) :
    GetURL gormRepo db shortCode = (Except.error Err.errURLNotFound, db) ∧
    RedirectURL gormRepo db shortCode =
      (Except.error Err.errURLNotFound, db) ∧
    DeleteURL gormRepo db shortCode = (Except.error Err.errURLNotFound, db) := by
  have hfind : db.rows.find? (fun r => r.shortCode == shortCode) = none := by
    rw [List.find?_eq_none]
    intro r hr
    simpa using h r hr
  have hany : db.rows.any (fun r => r.shortCode == shortCode) = false := by
    rw [List.any_eq_false]
    intro r hr
    simpa using h r hr
  refine ⟨?_, ?_, ?_⟩
  · simp [GetURL, gormRepo, gormGetByShortCode, hfind]
  · simp [RedirectURL, gormRepo, gormGetByShortCode, hfind]
  · simp [DeleteURL, gormRepo, gormDelete, hany]

/-- C5 witness: on an empty store, all three operations fail with
`ErrURLNotFound` for the code "abc123". -/
theorem missing_code_not_found_witness :
    GetURL gormRepo { rows := [], nextId := 1, now := 0 } "abc123" =
      (Except.error Err.errURLNotFound,
       { rows := [], nextId := 1, now := 0 }) ∧
    RedirectURL gormRepo { rows := [], nextId := 1, now := 0 } "abc123" =
      (Except.error Err.errURLNotFound,
       { rows := [], nextId := 1, now := 0 }) ∧
    DeleteURL gormRepo { rows := [], nextId := 1, now := 0 } "abc123" =
      (Except.error Err.errURLNotFound,
       { rows := [], nextId := 1, now := 0 }) :=
  missing_code_not_found { rows := [], nextId := 1, now := 0 } "abc123"
    (by intro r hr; simp at hr)

/-! ### List helpers for the store model -/

theorem find?_map_comm {r : URL} (l : List URL) (p : URL → Bool)
    (f : URL → URL) (hf : ∀ x, p (f x) = p x) (h : l.find? p = some r) :
    (l.map f).find? p = some (f r) := by
  induction l with
  | nil => simp at h
  | cons a t ih =>
    cases hp : p a with
    | true =>
      rw [List.find?_cons_of_pos _ hp] at h
      injection h with h
      rw [List.map_cons, List.find?_cons_of_pos _ ((hf a).trans hp), h]
    | false =>
      have hp' : ¬ p a = true := by simp [hp]
      have hpf : ¬ p (f a) = true := by simp [hf, hp]
      rw [List.find?_cons_of_neg _ hp'] at h
      rw [List.map_cons, List.find?_cons_of_neg _ hpf]
      exact ih h

theorem find?_append_of_none {α : Type} {l₁ l₂ : List α} {p : α → Bool}
    (h : l₁.find? p = none) : (l₁ ++ l₂).find? p = l₂.find? p := by
  induction l₁ with
  | nil => simp
  | cons a t ih =>
    cases hp : p a with
    | true => rw [List.find?_cons_of_pos _ hp] at h; cases h
    | false =>
      have hp' : ¬ p a = true := by simp [hp]
      rw [List.find?_cons_of_neg _ hp'] at h
      rw [List.cons_append, List.find?_cons_of_neg _ hp']
      exact ih h

/-- C2: a successful `RedirectURL` on the record found for a short code
returns its original URL, and the resulting store state is exactly the
store state after the single atomic `IncrementVisits` update: every row
matching the code has `visits` one greater, all other rows are
untouched, and in particular the looked-up record's counter is its old
value plus 1. -/
theorem redirectURL_increments_visits (db : GormDB) (shortCode : String)
    (r : URL)
    (h : db.rows.find? (fun x => x.shortCode == shortCode) = some r) :
    RedirectURL gormRepo db shortCode =
      (Except.ok r.originalURL,
       { db with rows := db.rows.map (fun x =>
           if x.shortCode == shortCode then { x with visits := x.visits + 1 }
           else x) }) ∧
    (RedirectURL gormRepo db shortCode).2 =
      (gormIncrementVisits db shortCode).2 ∧
    (RedirectURL gormRepo db shortCode).2.rows.find?
        (fun x => x.shortCode == shortCode) =
      some { r with visits := r.visits + 1 } := by
  have hmem : r ∈ db.rows := List.mem_of_find?_eq_some h
  have hpr : (r.shortCode == shortCode) = true := by
    have := List.find?_some h
    simpa using this
  have hany : db.rows.any (fun x => x.shortCode == shortCode) = true :=
    List.any_eq_true.mpr ⟨r, hmem, hpr⟩
  have hmain : RedirectURL gormRepo db shortCode =
      (Except.ok r.originalURL,
       { db with rows := db.rows.map (fun x =>
           if x.shortCode == shortCode then { x with visits := x.visits + 1 }
           else x) }) := by
    simp [RedirectURL, gormRepo, gormGetByShortCode, gormIncrementVisits, h,
      hany]
  refine ⟨hmain, ?_, ?_⟩
  · rw [hmain]
    simp [gormIncrementVisits, hany]
  · rw [hmain]
    have := find?_map_comm db.rows (fun x => x.shortCode == shortCode)
      (fun x => if x.shortCode == shortCode then { x with visits := x.visits + 1 }
        else x) ?_ h
    · simpa [hpr] using this
    · intro x
      by_cases hx : (x.shortCode == shortCode) = true
      · simp [hx]
      · simp [hx]

/-- C2 witness: on a store holding the stub record with 7 visits,
`RedirectURL "abc123"` returns its original URL and leaves the record
with 8 visits via the store-level increment. -/
theorem redirectURL_increments_visits_witness :
    RedirectURL gormRepo
        { rows := [{ stubURL with visits := 7 }], nextId := 2, now := 1 }
        "abc123" =
      (Except.ok "https://example.com/a",
       { rows := [{ stubURL with visits := 8 }], nextId := 2, now := 1 }) ∧
    (RedirectURL gormRepo
        { rows := [{ stubURL with visits := 7 }], nextId := 2, now := 1 }
        "abc123").2.rows.find? (fun x => x.shortCode == "abc123") =
      some { stubURL with visits := 8 } := by
  have h := redirectURL_increments_visits
    { rows := [{ stubURL with visits := 7 }], nextId := 2, now := 1 }
    "abc123" { stubURL with visits := 7 } (by rfl)
  refine ⟨h.1.trans (by rfl), h.2.2.trans (by rfl)⟩

/-- C3: whenever `ShortenURL` succeeds, calling it again with the same
original URL (under any random source) returns the very same record —
same `short_code` in particular — and leaves the store exactly as it
was: the second call is answered from the dedup lookup and creates
nothing. -/
theorem shortenURL_idempotent (db db' : GormDB) (u : String) (r : URL)
    (rnd rnd' : randSource)
    (h : ShortenURL gormRepo rnd db u = (Except.ok r, db')) :
    ShortenURL gormRepo rnd' db' u = (Except.ok r, db') := by
  by_cases hu : u = ""
  · rw [hu] at h
    simp [ShortenURL] at h
  · rw [ShortenURL, if_neg hu] at h
    rw [ShortenURL, if_neg hu]
    cases hfind : db.rows.find? (fun x => x.originalURL == u) with
    | some e =>
      simp only [gormRepo, gormGetByOriginalURL, hfind] at h
      obtain ⟨h1, h2⟩ := Prod.mk.injEq .. ▸ h
      injection h1 with h1
      rw [← h2]
      simp only [gormRepo, gormGetByOriginalURL, hfind, h1]
    | none =>
      simp only [gormRepo, gormGetByOriginalURL, hfind] at h
      cases hg : generateShortCode rnd with
      | error e => simp [hg] at h
      | ok c =>
        simp only [hg] at h
        cases hdup : db.rows.any (fun x => x.shortCode == c) with
        | true => simp [gormCreate, hdup] at h
        | false =>
          simp only [gormCreate, hdup, Bool.false_eq_true, if_false] at h
          obtain ⟨h1, h2⟩ := Prod.mk.injEq .. ▸ h
          injection h1 with h1
          subst h1
          subst h2
          simp only [gormRepo, gormGetByOriginalURL]
          rw [find?_append_of_none hfind]
          simp

/-- The empty store. -/
def emptyDB : GormDB := { rows := [], nextId := 1, now := 0 }

/-- The record created by shortening "https://example.com/a" on the
empty store with an all-zero random source. -/
def storedA : URL :=
  { id := 1, originalURL := "https://example.com/a", shortCode := "aaaaaa",
    visits := 0, createdAt := 0, updatedAt := 0, expiresAt := none }

/-- The store after that first creation. -/
def dbAfterA : GormDB := { rows := [storedA], nextId := 2, now := 1 }

/-- C3 witness: shortening "https://example.com/a" on the empty store
creates `storedA`; shortening it again returns the same record and
leaves the store unchanged. -/
theorem shortenURL_idempotent_witness :
    ShortenURL gormRepo rndZero dbAfterA "https://example.com/a" =
      (Except.ok storedA, dbAfterA) :=
  shortenURL_idempotent emptyDB dbAfterA "https://example.com/a" storedA
    rndZero rndZero (by rfl)

/-- On a list whose short codes are pairwise distinct, searching for a
member's short code finds exactly that member. -/
theorem find?_shortCode_of_nodup (l : List URL) (e : URL)
    (hnd : (l.map URL.shortCode).Nodup) (he : e ∈ l) :
    l.find? (fun x => x.shortCode == e.shortCode) = some e := by
  induction l with
  | nil => cases he
  | cons a t ih =>
    rw [List.map_cons, List.nodup_cons] at hnd
    cases he with
    | head => exact List.find?_cons_of_pos _ (by simp)
    | tail _ ht =>
      have hne : (a.shortCode == e.shortCode) = false := by
        simp only [beq_eq_false_iff_ne, ne_eq]
        intro hEq
        exact hnd.1 (by rw [hEq]; exact List.mem_map_of_mem URL.shortCode ht)
      simp only [List.find?, hne]
      exact ih hnd.2 ht

/-- C9: on a store whose short codes are pairwise distinct (the store's
uniqueness invariant), a successful `ShortenURL u` followed by `GetURL`
on the returned record's short code yields a record whose original URL
is exactly `u` — no normalization is applied anywhere. -/
theorem shortenURL_getURL_roundtrip (db db' : GormDB) (u : String) (r : URL)
    (rnd : randSource)
    (hnd : (db.rows.map URL.shortCode).Nodup)
    (h : ShortenURL gormRepo rnd db u = (Except.ok r, db')) :
    ∃ r', GetURL gormRepo db' r.shortCode = (Except.ok r', db') ∧
      r'.originalURL = u := by
  by_cases hu : u = ""
  · rw [hu] at h
    simp [ShortenURL] at h
  · rw [ShortenURL, if_neg hu] at h
    cases hfind : db.rows.find? (fun x => x.originalURL == u) with
    | some e =>
      simp only [gormRepo, gormGetByOriginalURL, hfind] at h
      obtain ⟨h1, h2⟩ := Prod.mk.injEq .. ▸ h
      injection h1 with h1
      subst h1
      subst h2
      have hmem : e ∈ db.rows := List.mem_of_find?_eq_some hfind
      have hfnd2 := find?_shortCode_of_nodup db.rows e hnd hmem
      refine ⟨e, ?_, ?_⟩
      · simp [GetURL, gormRepo, gormGetByShortCode, hfnd2]
      · have := List.find?_some hfind
        simpa using this
    | none =>
      simp only [gormRepo, gormGetByOriginalURL, hfind] at h
      cases hg : generateShortCode rnd with
      | error e => simp [hg] at h
      | ok c =>
        simp only [hg] at h
        cases hdup : db.rows.any (fun x => x.shortCode == c) with
        | true => simp [gormCreate, hdup] at h
        | false =>
          simp only [gormCreate, hdup, Bool.false_eq_true, if_false] at h
          obtain ⟨h1, h2⟩ := Prod.mk.injEq .. ▸ h
          injection h1 with h1
          subst h1
          subst h2
          refine ⟨{ id := db.nextId, originalURL := u, shortCode := c, visits := 0, createdAt := db.now, updatedAt := db.now, expiresAt := none }, ?_, rfl⟩
          have hall := List.any_eq_false.mp hdup
          have hnone : db.rows.find? (fun x => x.shortCode == c) = none := by
            rw [List.find?_eq_none]
            intro x hx
            exact hall x hx
          simp only [GetURL, gormRepo, gormGetByShortCode,
            find?_append_of_none hnone]
          simp

/-- C9 witness: shortening "https://example.com/a" on the empty store
and reading the result back by its short code returns a record whose
original URL is exactly "https://example.com/a". -/
theorem shortenURL_getURL_roundtrip_witness :
    ∃ r', GetURL gormRepo dbAfterA storedA.shortCode =
        (Except.ok r', dbAfterA) ∧
      r'.originalURL = "https://example.com/a" :=
  shortenURL_getURL_roundtrip emptyDB dbAfterA "https://example.com/a"
    storedA rndZero (by simp [emptyDB]) (by rfl)

/-! ### C1: behaviour on a short-code collision -/

/-- A store already holding a record whose short code is "aaaaaa" (the
code the all-zero random source generates). -/
def collisionDB : GormDB :=
  { rows := [{ id := 1, originalURL := "https://example.com/a", shortCode := "aaaaaa", visits := 0, createdAt := 0, updatedAt := 0, expiresAt := none }],
    nextId := 2, now := 1 }

/-- C1 counterexample: shortening a brand-new URL whose generated code
collides with an existing record makes `ShortenURL` return the raw
wrapped creation error on the very first collision — there is no
regeneration, no retry and no `CodeGenerationExhausted`-style error. -/
theorem shortenURL_no_retry_counterexample :
    ShortenURL gormRepo rndZero collisionDB "https://example.com/b" =
      (Except.error (Err.wrapped "error al crear URL"), collisionDB) := by
  rfl

/-- C1 amended: when the dedup lookup misses, code generation succeeds,
and the generated code collides with an existing record, `ShortenURL`
returns the creation failure directly to the caller with the store
unchanged; `ErrGeneratingCode` only ever arises from a random-source
failure, never from a collision. -/
theorem shortenURL_returns_create_error_immediately (db : GormDB)
    (u : String) (rnd : randSource) (c : String)
    (hu : u ≠ "")
    (hdedup : db.rows.find? (fun x => x.originalURL == u) = none)
    (hgen : generateShortCode rnd = Except.ok c)
    (hdup : db.rows.any (fun x => x.shortCode == c) = true) :
    ShortenURL gormRepo rnd db u =
      (Except.error (Err.wrapped "error al crear URL"), db) := by
  rw [ShortenURL, if_neg hu]
  simp [gormRepo, gormGetByOriginalURL, hdedup, hgen, gormCreate, hdup]

/-- C1 amended witness: a second fresh URL against the same store hits
the same collision and receives the wrapped creation error at once. -/
theorem shortenURL_returns_create_error_immediately_witness :
    ShortenURL gormRepo rndZero collisionDB "https://example.com/c" =
      (Except.error (Err.wrapped "error al crear URL"), collisionDB) :=
  shortenURL_returns_create_error_immediately collisionDB
    "https://example.com/c" rndZero "aaaaaa" (by decide) (by rfl) (by rfl)
    (by rfl)

/-! ### C8: listing order and pagination -/

/-- First of three records inserted in order. -/
def rowA : URL :=
  { id := 1, originalURL := "https://example.com/a", shortCode := "aaaaaa", visits := 0, createdAt := 0, updatedAt := 0, expiresAt := none }

/-- Second of three records inserted in order. -/
def rowB : URL :=
  { id := 2, originalURL := "https://example.com/b", shortCode := "bbbbbb", visits := 0, createdAt := 1, updatedAt := 1, expiresAt := none }

/-- Third of three records inserted in order. -/
def rowC : URL :=
  { id := 3, originalURL := "https://example.com/c", shortCode := "cccccc", visits := 0, createdAt := 2, updatedAt := 2, expiresAt := none }

/-- The store after inserting the three records in order. -/
def threeRowDB : GormDB := { rows := [rowA, rowB, rowC], nextId := 4, now := 3 }

/-- C8 counterexample: over three records created at times 0, 1, 2, the
first page of `ListURLs` returns the two OLDEST records in ascending
creation order — the `List` query requests no ordering, so rows come
back in insertion order, not descending `created_at`. -/
theorem listURLs_not_descending_counterexample :
    ListURLs gormRepo threeRowDB 2 0 = (Except.ok [rowA, rowB], threeRowDB) ∧
    rowA.createdAt < rowB.createdAt := by
  exact ⟨rfl, by decide⟩

/-- C8 amended: `ListURLs` returns records in the store's natural
insertion order (ascending creation), and pagination over that fixed
order is correct: over any three inserted records, limit 2 / offset 0
followed by limit 2 / offset 2 yields the first two records and then
the remaining one, with no overlap and no gaps. -/
theorem listURLs_pagination_insertion_order (db : GormDB) (a b c : URL)
    (h : db.rows = [a, b, c]) :
    ListURLs gormRepo db 2 0 = (Except.ok [a, b], db) ∧
    ListURLs gormRepo db 2 2 = (Except.ok [c], db) := by
  constructor
  · simp [ListURLs, gormRepo, gormList, h]
  · simp only [ListURLs, gormRepo, gormList, h]
    norm_num
    rfl

/-- C8 amended witness: the concrete three-record store paginates into
its first two rows and then its third. -/
theorem listURLs_pagination_insertion_order_witness :
    ListURLs gormRepo threeRowDB 2 0 = (Except.ok [rowA, rowB], threeRowDB) ∧
    ListURLs gormRepo threeRowDB 2 2 = (Except.ok [rowC], threeRowDB) :=
  listURLs_pagination_insertion_order threeRowDB rowA rowB rowC rfl

/-! ### C7: code generator -/

/-- Indexing `charset` always lands inside the alphabet (also for the
out-of-range default, which is itself a charset character; `rand.Int`
never produces an out-of-range index anyway). -/
theorem getD_charset_mem (v : Nat) : charset.toList.getD v 'a' ∈ charset.toList := by
  by_cases hv : v < charset.toList.length
  · rw [List.getD_eq_getElem charset.toList 'a' hv]
    exact List.getElem_mem _
  · rw [List.getD_eq_default charset.toList 'a' (Nat.le_of_not_lt hv)]
    decide

/-- When every draw up to `n` succeeds, `genCodeChars` produces exactly
`n` characters, all from the alphabet. -/
theorem genCodeChars_ok_of_draws (rnd : randSource) (n : Nat)
    (h : ∀ i, i < n → ∃ v, rnd i = Except.ok v) :
    ∃ cs, genCodeChars rnd n = Except.ok cs ∧ cs.length = n ∧
      ∀ ch ∈ cs, ch ∈ charset.toList := by
  induction n with
  | zero => exact ⟨[], rfl, rfl, by simp⟩
  | succ k ih =>
    obtain ⟨cs, hcs, hlen, hmem⟩ := ih (fun i hi => h i (Nat.lt_succ_of_lt hi))
    obtain ⟨v, hv⟩ := h k (Nat.lt_succ_self k)
    refine ⟨cs ++ [charset.toList.getD v 'a'], ?_, by simp [hlen], ?_⟩
    · simp [genCodeChars, hcs, hv]
    · intro ch hch
      rcases List.mem_append.mp hch with hch | hch
      · exact hmem ch hch
      · simp only [List.mem_singleton] at hch
        rw [hch]
        exact getD_charset_mem v
/-- A failing `genCodeChars` run fails with the error of one of its
draws. -/
theorem genCodeChars_error_of_draw (rnd : randSource) (n : Nat) (e : String)
    (h : genCodeChars rnd n = Except.error e) :
    ∃ i, i < n ∧ rnd i = Except.error e := by
  induction n with
  | zero => simp [genCodeChars] at h
  | succ k ih =>
    simp only [genCodeChars] at h
    cases hg : genCodeChars rnd k with
    | error e2 =>
      rw [hg] at h
      simp only [Except.error.injEq] at h
      subst h
      obtain ⟨i, hi, hie⟩ := ih hg
      exact ⟨i, Nat.lt_succ_of_lt hi, hie⟩
    | ok acc =>
      rw [hg] at h
      cases hr : rnd k with
      | error e2 =>
        rw [hr] at h
        simp only [Except.error.injEq] at h
        subst h
        exact ⟨k, Nat.lt_succ_self k, hr⟩
      | ok v =>
        rw [hr] at h
        simp at h

/-- C7: the alphabet has exactly 62 characters `[a-zA-Z0-9]`; when the
secure-random source delivers all six draws, `generateShortCode`
returns a code of length exactly 6 whose characters all come from the
alphabet; and whenever `generateShortCode` fails, its error is the
error of one of the six draws of the random source — so `ShortenURL`
aborts the creation attempt with `ErrGeneratingCode` wrapping that
error, with no fallback code and no record created. -/
theorem generateShortCode_spec (rnd : randSource)
    (h : ∀ i, i < codeLength → ∃ v, rnd i = Except.ok v) :
    charset.length = 62 ∧
    (∃ code, generateShortCode rnd = Except.ok code ∧
      code.length = codeLength ∧ ∀ ch ∈ code.toList, ch ∈ charset.toList) ∧
    (∀ (rnd2 : randSource) (e : String),
      generateShortCode rnd2 = Except.error e →
      ∃ i, i < codeLength ∧ rnd2 i = Except.error e) ∧
    (∀ (σ : Type) (repo : URLRepository σ) (s : σ) (u : String)
      (rnd2 : randSource) (e : String), u ≠ "" →
      (∀ x, (repo.getByOriginalURL s u).1 ≠ Except.ok (some x)) →
      generateShortCode rnd2 = Except.error e →
      ShortenURL repo rnd2 s u =
        (Except.error (Err.errGeneratingCode e),
         (repo.getByOriginalURL s u).2)) := by
  refine ⟨by decide, ?_, ?_, ?_⟩
  · obtain ⟨cs, hcs, hlen, hmem⟩ := genCodeChars_ok_of_draws rnd codeLength h
    exact ⟨String.mk cs, by simp [generateShortCode, hcs], hlen, hmem⟩
  · intro rnd2 e hge
    rw [generateShortCode] at hge
    cases hg : genCodeChars rnd2 codeLength with
    | error e2 =>
      rw [hg] at hge
      simp only [Except.error.injEq] at hge
      subst hge
      exact genCodeChars_error_of_draw rnd2 codeLength e2 hg
    | ok cs =>
      rw [hg] at hge
      simp at hge
  · intro σ repo s u rnd2 e hu hnx hge
    rw [ShortenURL, if_neg hu]
    cases hp : repo.getByOriginalURL s u with
    | mk res s1 =>
      cases res with
      | error e2 => simp [hge, hp]
      | ok o =>
        cases o with
        | none => simp [hge, hp]
        | some x =>
          have := hnx x
          rw [hp] at this
          simp at this

/-- C7 witness: with the identity draws (0, 1, 2, 3, 4, 5), the
generator returns the six-character code made of the first six alphabet
letters, and the full specification instantiates. -/
theorem generateShortCode_spec_witness :
    charset.length = 62 ∧
    (∃ code, generateShortCode (fun i => Except.ok i) = Except.ok code ∧
      code.length = codeLength ∧ ∀ ch ∈ code.toList, ch ∈ charset.toList) ∧
    (∀ (rnd2 : randSource) (e : String),
      generateShortCode rnd2 = Except.error e →
      ∃ i, i < codeLength ∧ rnd2 i = Except.error e) ∧
    (∀ (σ : Type) (repo : URLRepository σ) (s : σ) (u : String)
      (rnd2 : randSource) (e : String), u ≠ "" →
      (∀ x, (repo.getByOriginalURL s u).1 ≠ Except.ok (some x)) →
      generateShortCode rnd2 = Except.error e →
      ShortenURL repo rnd2 s u =
        (Except.error (Err.errGeneratingCode e),
         (repo.getByOriginalURL s u).2)) :=
  generateShortCode_spec (fun i => Except.ok i)
    (fun i _ => ⟨i, rfl⟩)
